import Mathlib

/-!
Verification development for the GraphRAG hybrid API server
(`src/backend/ragtest/main.py`).

Python strings are embedded as `List Char`; Python's JSON-like runtime
values (including pandas DataFrames) as the inductive `PyVal`.  The
external world (the spawned `graphrag` CLI process and the in-process
engine call) is passed in explicitly: the CLI as a function from the
built command line to an outcome, the engine call as an `ApiBehavior`.
-/

namespace Ragtest

/-- Python whitespace characters stripped by `str.strip()` (ASCII range). -/
def isPySpace (c : Char) : Bool :=
  c == ' ' || c == '\t' || c == '\n' || c == '\r' || c == '\x0b' || c == '\x0c'

/-- Embedding of Python `str.strip()`: drop whitespace from both ends. -/
def pyStrip (s : List Char) : List Char :=
  ((s.dropWhile isPySpace).reverse.dropWhile isPySpace).reverse

/-- The marker token `"SUCCESS:"` searched for in CLI stdout
(`main.py` line 109). -/
def marker : List Char := "SUCCESS:".data

/-- Header line `"Local Search Response:"` (`main.py` line 113). -/
def headerLocal : List Char := "Local Search Response:".data

/-- Header line `"Global Search Response:"` (`main.py` line 113). -/
def headerGlobal : List Char := "Global Search Response:".data

/-- Embedding of Python `"SUCCESS:" in s`: does `marker` occur as a
contiguous substring? -/
def containsMarker : List Char → Bool
  | [] => false
  | c :: rest => marker.isPrefixOf (c :: rest) || containsMarker rest

/-- Fuelled worker for `splitMarker` (Python `s.split("SUCCESS:")`):
scan left to right, cutting at each non-overlapping occurrence of the
marker.  The fuel only needs to dominate the length of the list; it is
instantiated with exactly that in `splitMarker`. -/
def splitMarkerF : Nat → List Char → List (List Char)
  | 0, s => [s]
  | _ + 1, [] => [[]]
  | fuel + 1, c :: rest =>
    if marker.isPrefixOf (c :: rest) then
      [] :: splitMarkerF fuel (List.drop marker.length (c :: rest))
    else
      match splitMarkerF fuel rest with
      | [] => [[c]]
      | part :: parts => (c :: part) :: parts

/-- Embedding of Python `s.split("SUCCESS:")`. -/
def splitMarker (s : List Char) : List (List Char) :=
  splitMarkerF s.length s

/-- Embedding of Python `parts[-1]` on a split result (split results are
never empty, so the default is irrelevant). -/
def lastD : List (List Char) → List Char
  | [] => []
  | [x] => x
  | _ :: x :: xs => lastD (x :: xs)

/-- Embedding of Python `s.split("\n")`. -/
def splitNl : List Char → List (List Char)
  | [] => [[]]
  | c :: rest =>
    if c == '\n' then [] :: splitNl rest
    else
      match splitNl rest with
      | [] => [[c]]
      | part :: parts => (c :: part) :: parts

/-- The header-stripping step of `execute_cli_search` (`main.py` lines
113-114): if the text begins with one of the two known header lines,
drop its first line (`"\n".join(text.split("\n")[1:]).strip()`). -/
def stripHeaderLine (s : List Char) : List Char :=
  if headerLocal.isPrefixOf s || headerGlobal.isPrefixOf s then
    pyStrip (List.intercalate ['\n'] ((splitNl s).drop 1))
  else s

/-- The stdout-normalisation performed by `execute_cli_search` on exit
code 0 (`main.py` lines 106-114): strip the output, and if it contains
the `"SUCCESS:"` marker keep only the last split part (stripped, with a
known header line removed). -/
def cleanStdout (stdout : List Char) : List Char :=
  let t0 := pyStrip stdout
  if containsMarker t0 then
    if 1 < (splitMarker t0).length then
      stripHeaderLine (pyStrip (lastD (splitMarker t0)))
    else t0
  else t0

/-- Embedding of the Python runtime values flowing through the context
processing utilities: JSON primitives, pandas DataFrames (`df`, already
viewed as their row records: one association list of column name to cell
value per row), Python lists and dicts, and arbitrary other objects
(`obj`, tagged by an identity). -/
inductive PyVal where
  | str (s : List Char)
  | num (q : Rat)
  | bool (b : Bool)
  | none
  | obj (id : Nat)
  | df (rows : List (List (List Char × PyVal)))
  | list (xs : List PyVal)
  | dict (kvs : List (List Char × PyVal))

mutual
/-- Embedding of `recursively_convert` (`main.py` lines 55-63): a
DataFrame becomes `to_dict(orient="records")` (one dict per row, cells
untouched), lists and dicts are converted element-wise, everything else
is returned unchanged. -/
def recursively_convert : PyVal → PyVal
  | .str s => .str s
  | .num q => .num q
  | .bool b => .bool b
  | .none => .none
  | .obj n => .obj n
  | .df rows => .list (rows.map PyVal.dict)
  | .list xs => .list (convertList xs)
  | .dict kvs => .dict (convertDict kvs)

/-- `recursively_convert` mapped over the elements of a Python list. -/
def convertList : List PyVal → List PyVal
  | [] => []
  | x :: xs => recursively_convert x :: convertList xs

/-- `recursively_convert` mapped over the values of a Python dict. -/
def convertDict : List (List Char × PyVal) → List (List Char × PyVal)
  | [] => []
  | kv :: kvs => (kv.1, recursively_convert kv.2) :: convertDict kvs
end

/-- Embedding of `process_context_data` (`main.py` lines 65-73): strings
are returned unchanged, a DataFrame becomes its records, lists and dicts
go through `recursively_convert`, and anything else becomes `None`. -/
def process_context_data : PyVal → PyVal
  | .str s => .str s
  | .df rows => .list (rows.map PyVal.dict)
  | .list xs => recursively_convert (.list xs)
  | .dict kvs => recursively_convert (.dict kvs)
  | .num _ => .none
  | .bool _ => .none
  | .none => .none
  | .obj _ => .none

mutual
/-- A value made only of JSON primitives, lists and dicts (no DataFrame,
no foreign object): the "already normalised" values of the spec. -/
def isJsonSafe : PyVal → Bool
  | .str _ => true
  | .num _ => true
  | .bool _ => true
  | .none => true
  | .obj _ => false
  | .df _ => false
  | .list xs => jsonSafeList xs
  | .dict kvs => jsonSafeDict kvs

/-- `isJsonSafe` over the elements of a list. -/
def jsonSafeList : List PyVal → Bool
  | [] => true
  | x :: xs => isJsonSafe x && jsonSafeList xs

/-- `isJsonSafe` over the values of a dict. -/
def jsonSafeDict : List (List Char × PyVal) → Bool
  | [] => true
  | kv :: kvs => isJsonSafe kv.2 && jsonSafeDict kvs
end

mutual
/-- Is a DataFrame value reachable from this value by walking only
through lists and dict values? -/
def hasDf : PyVal → Bool
  | .str _ => false
  | .num _ => false
  | .bool _ => false
  | .none => false
  | .obj _ => false
  | .df _ => true
  | .list xs => hasDfList xs
  | .dict kvs => hasDfDict kvs

/-- `hasDf` over the elements of a list. -/
def hasDfList : List PyVal → Bool
  | [] => false
  | x :: xs => hasDf x || hasDfList xs

/-- `hasDf` over the values of a dict. -/
def hasDfDict : List (List Char × PyVal) → Bool
  | [] => false
  | kv :: kvs => hasDf kv.2 || hasDfDict kvs
end

mutual
/-- Every DataFrame reachable through lists and dict values has only
DataFrame-free cells. -/
def cellsClean : PyVal → Bool
  | .str _ => true
  | .num _ => true
  | .bool _ => true
  | .none => true
  | .obj _ => true
  | .df rows => rowsClean rows
  | .list xs => cellsCleanList xs
  | .dict kvs => cellsCleanDict kvs

/-- All rows of a DataFrame have DataFrame-free cells. -/
def rowsClean : List (List (List Char × PyVal)) → Bool
  | [] => true
  | row :: rows => rowClean row && rowsClean rows

/-- All cells of one DataFrame row are DataFrame-free. -/
def rowClean : List (List Char × PyVal) → Bool
  | [] => true
  | kv :: row => !hasDf kv.2 && rowClean row

/-- `cellsClean` over the elements of a list. -/
def cellsCleanList : List PyVal → Bool
  | [] => true
  | x :: xs => cellsClean x && cellsCleanList xs

/-- `cellsClean` over the values of a dict. -/
def cellsCleanDict : List (List Char × PyVal) → Bool
  | [] => true
  | kv :: kvs => cellsClean kv.2 && cellsCleanDict kvs
end

/-- Outcome of one `subprocess.run` invocation of the external tool:
either the process ran to completion (return code, stdout, stderr) or
the invocation itself raised (timeout or spawn failure) with a message. -/
inductive CliOutcome where
  | exited (returncode : Int) (stdout stderr : List Char)
  | raised (message : List Char)

/-- The result dictionaries built by `execute_cli_search` and by the
API phase of the search endpoints. -/
structure SearchResult where
  response : List Char
  context_data : PyVal
  success : Bool
  method_used : List Char

/-- What a search endpoint hands to the HTTP layer: either a JSON body
(`JSONResponse(content=...)`) or a raised `HTTPException` with a status
code and a detail string. -/
inductive HttpOutcome where
  | ok (body : SearchResult)
  | httpError (status : Nat) (detail : List Char)

/-- The command line built by `execute_cli_search` (`main.py` lines
80-90): fixed tokens, the method and query, then the optional
`--community_level` and `--response_type` flags when those keyword
arguments are present. -/
def buildCmd (query method : List Char) (communityLevel : Option Nat)
    (responseType : Option (List Char)) : List (List Char) :=
  (["graphrag".data, "query".data, "--root".data, ".".data,
    "--method".data, method, "--query".data, query]
    ++ (match communityLevel with
        | some n => ["--community_level".data, Nat.toDigits 10 n]
        | Option.none => []))
    ++ (match responseType with
        | some rt => ["--response_type".data, rt]
        | Option.none => [])

/-- Embedding of `execute_cli_search` (`main.py` lines 76-136).  The
spawned process is abstracted as `runner`, a function from the built
command line to its outcome; `t` is the measured execution time. -/
def execute_cli_search (runner : List (List Char) → CliOutcome)
    (query method : List Char) (communityLevel : Option Nat)
    (responseType : Option (List Char)) (t : Rat) : SearchResult :=
  match runner (buildCmd query method communityLevel responseType) with
  | .exited rc stdout stderr =>
    if rc = 0 then
      { response := cleanStdout stdout
        context_data := .dict [("method".data, .str "cli_fallback".data),
                               ("execution_time".data, .num t)]
        success := true
        method_used := "cli".data }
    else
      { response := "CLI Error: ".data ++ stderr
        context_data := .dict [("error".data, .str stderr)]
        success := false
        method_used := "cli".data }
  | .raised msg =>
      { response := "CLI Exception: ".data ++ msg
        context_data := .dict [("error".data, .str msg)]
        success := false
        method_used := "cli".data }

/-- `COMMUNITY_LEVEL` (`main.py` line 26). -/
def COMMUNITY_LEVEL : Nat := 2

/-- `RESPONSE_TYPE` (`main.py` line 28). -/
def RESPONSE_TYPE : List Char := "Multiple Paragraphs".data

/-- The process-wide flags consulted by every search endpoint:
`GRAPHRAG_API_AVAILABLE` (import succeeded) and `app.state.data_loaded`
(startup dataset load succeeded). -/
structure AppState where
  graphragApiAvailable : Bool
  dataLoaded : Bool

/-- Outcome of the awaited in-process engine call for the request:
either it returned a `(response, context)` pair or it raised an
exception carrying a message. -/
inductive ApiBehavior where
  | ok (response : List Char) (context : PyVal)
  | raises (e : List Char)

/-- Embedding of the `/search/global` endpoint (`main.py` lines
192-236): try the in-process API when available and loaded; on engine
success return the API body at once; otherwise (engine unavailable,
data not loaded, or engine exception) run the CLI fallback with method
`"global"`, raising HTTP 500 when the CLI result is unsuccessful. -/
def global_search (st : AppState) (api : ApiBehavior)
    (runner : List (List Char) → CliOutcome) (query : List Char)
    (t : Rat) : HttpOutcome :=
  match (if st.graphragApiAvailable && st.dataLoaded then
           match api with
           | .ok response context =>
               some (HttpOutcome.ok
                 { response := response
                   context_data := process_context_data context
                   method_used := "api".data
                   success := true })
           | .raises _ => Option.none
         else Option.none) with
  | some r => r
  | Option.none =>
    let result := execute_cli_search runner query "global".data
      (some COMMUNITY_LEVEL) (some RESPONSE_TYPE) t
    if !result.success then HttpOutcome.httpError 500 result.response
    else HttpOutcome.ok result

/-- Embedding of the `/search/local` endpoint (`main.py` lines
238-284); same shape as `global_search` with CLI method `"local"`. -/
def local_search (st : AppState) (api : ApiBehavior)
    (runner : List (List Char) → CliOutcome) (query : List Char)
    (t : Rat) : HttpOutcome :=
  match (if st.graphragApiAvailable && st.dataLoaded then
           match api with
           | .ok response context =>
               some (HttpOutcome.ok
                 { response := response
                   context_data := process_context_data context
                   method_used := "api".data
                   success := true })
           | .raises _ => Option.none
         else Option.none) with
  | some r => r
  | Option.none =>
    let result := execute_cli_search runner query "local".data
      (some COMMUNITY_LEVEL) (some RESPONSE_TYPE) t
    if !result.success then HttpOutcome.httpError 500 result.response
    else HttpOutcome.ok result

/-- Embedding of the `/search/drift` endpoint (`main.py` lines
286-332): the CLI fallback uses method `"local"` and, on success, the
result's `method_used` is overwritten to `"cli_local_fallback"`. -/
def drift_search (st : AppState) (api : ApiBehavior)
    (runner : List (List Char) → CliOutcome) (query : List Char)
    (t : Rat) : HttpOutcome :=
  match (if st.graphragApiAvailable && st.dataLoaded then
           match api with
           | .ok response context =>
               some (HttpOutcome.ok
                 { response := response
                   context_data := process_context_data context
                   method_used := "api".data
                   success := true })
           | .raises _ => Option.none
         else Option.none) with
  | some r => r
  | Option.none =>
    let result := execute_cli_search runner query "local".data
      (some COMMUNITY_LEVEL) (some RESPONSE_TYPE) t
    if !result.success then HttpOutcome.httpError 500 result.response
    else HttpOutcome.ok { result with method_used := "cli_local_fallback".data }

/-- Embedding of the `/search/basic` endpoint (`main.py` lines
334-374): the CLI fallback uses method `"local"` and, on success, the
result's `method_used` is overwritten to `"cli_basic_fallback"`. -/
def basic_search (st : AppState) (api : ApiBehavior)
    (runner : List (List Char) → CliOutcome) (query : List Char)
    (t : Rat) : HttpOutcome :=
  match (if st.graphragApiAvailable && st.dataLoaded then
           match api with
           | .ok response context =>
               some (HttpOutcome.ok
                 { response := response
                   context_data := process_context_data context
                   method_used := "api".data
                   success := true })
           | .raises _ => Option.none
         else Option.none) with
  | some r => r
  | Option.none =>
    let result := execute_cli_search runner query "local".data
      (some COMMUNITY_LEVEL) (some RESPONSE_TYPE) t
    if !result.success then HttpOutcome.httpError 500 result.response
    else HttpOutcome.ok { result with method_used := "cli_basic_fallback".data }

/-- Embedding of the `/query` compatibility endpoint (`main.py` lines
400-415).  The `method` query parameter is optional with FastAPI
default `"global"`, modelled by an `Option` resolved with `getD`. -/
def query_get (st : AppState) (api : ApiBehavior)
    (runner : List (List Char) → CliOutcome) (q : List Char)
    (methodParam : Option (List Char)) (t : Rat) : HttpOutcome :=
  let method := methodParam.getD "global".data
  if method = "global".data then global_search st api runner q t
  else if method = "local".data then local_search st api runner q t
  else if method = "drift".data then drift_search st api runner q t
  else if method = "basic".data then basic_search st api runner q t
  else HttpOutcome.httpError 400
    "Invalid method. Use: global, local, drift, or basic".data

/-- The CLI-phase result of an endpoint, as shared by all four search
endpoints: `execute_cli_search` with the process-wide community level
and response type. -/
def cliPhaseResult (runner : List (List Char) → CliOutcome)
    (query method : List Char) (t : Rat) : SearchResult :=
  execute_cli_search runner query method (some COMMUNITY_LEVEL)
    (some RESPONSE_TYPE) t

/-- The full CLI phase of `global_search`/`local_search`: raise 500 on
failure, otherwise return the result as the body. -/
def cliRespond (runner : List (List Char) → CliOutcome)
    (query method : List Char) (t : Rat) : HttpOutcome :=
  if !(cliPhaseResult runner query method t).success then
    HttpOutcome.httpError 500 (cliPhaseResult runner query method t).response
  else HttpOutcome.ok (cliPhaseResult runner query method t)

/-- The full CLI phase of `drift_search`/`basic_search`: CLI method
`"local"`, 500 on failure, and on success the given substitution tag
written into `method_used`. -/
def tagRespond (runner : List (List Char) → CliOutcome)
    (query : List Char) (t : Rat) (tag : List Char) : HttpOutcome :=
  if !(cliPhaseResult runner query "local".data t).success then
    HttpOutcome.httpError 500 (cliPhaseResult runner query "local".data t).response
  else HttpOutcome.ok
    { cliPhaseResult runner query "local".data t with method_used := tag }

/-! ### Lemmas about the stdout normalisation -/

theorem marker_length_eq : marker.length = 8 := rfl

theorem pyStrip_within (s : List Char) : pyStrip s <:+: s := by
  unfold pyStrip
  have h1 : s.dropWhile isPySpace <:+ s := List.dropWhile_suffix _
  have h2 : (s.dropWhile isPySpace).reverse.dropWhile isPySpace <:+
      (s.dropWhile isPySpace).reverse := List.dropWhile_suffix _
  have h3 : ((s.dropWhile isPySpace).reverse.dropWhile isPySpace).reverse <+:
      s.dropWhile isPySpace := by
    rw [← List.reverse_suffix]
    simpa using h2
  exact h3.isInfix.trans h1.isInfix

theorem containsMarker_iff (s : List Char) : containsMarker s = true ↔ marker <:+: s := by
  induction s with
  | nil =>
    simp only [containsMarker, Bool.false_eq_true, false_iff]
    intro hc
    have h1 := hc.length_le
    simp [marker_length_eq] at h1
  | cons c rest ih =>
    simp only [containsMarker, Bool.or_eq_true, ih, List.isPrefixOf_iff_prefix]
    exact Iff.symm List.infix_cons_iff

theorem splitMarkerF_ne_nil (fuel : Nat) (s : List Char) : splitMarkerF fuel s ≠ [] := by
  match fuel, s with
  | 0, s => simp [splitMarkerF]
  | _ + 1, [] => simp [splitMarkerF]
  | fuel + 1, c :: rest =>
    simp only [splitMarkerF]
    split
    · simp
    · split <;> simp

theorem lastD_cons (x : List Char) (l : List (List Char)) (h : l ≠ []) :
    lastD (x :: l) = lastD l := by
  cases l with
  | nil => exact absurd rfl h
  | cons y ys => rfl

theorem splitMarkerF_eq_single (fuel : Nat) (s : List Char) (h : ¬ marker <:+: s) :
    splitMarkerF fuel s = [s] := by
  induction fuel generalizing s with
  | zero => rfl
  | succ fuel ih =>
    match s with
    | [] => rfl
    | c :: rest =>
      have hp : marker.isPrefixOf (c :: rest) = false := by
        rw [Bool.eq_false_iff]
        intro hc
        exact h (List.isPrefixOf_iff_prefix.mp hc).isInfix
      have hr : ¬ marker <:+: rest := fun hc => h (List.infix_cons hc)
      simp [splitMarkerF, hp, ih rest hr]

theorem splitMarkerF_two_le (fuel : Nat) (s : List Char) (hf : s.length ≤ fuel)
    (h : marker <:+: s) : 1 < (splitMarkerF fuel s).length := by
  induction fuel generalizing s with
  | zero =>
    have h1 := h.length_le
    simp [marker_length_eq] at h1
    omega
  | succ fuel ih =>
    cases s with
    | nil =>
      have h1 := h.length_le
      simp [marker_length_eq] at h1
    | cons c rest =>
      cases hp : marker.isPrefixOf (c :: rest) with
      | true =>
        have h1 : 0 < (splitMarkerF fuel (List.drop marker.length (c :: rest))).length :=
          List.length_pos.mpr (splitMarkerF_ne_nil _ _)
        simp [splitMarkerF, hp]
        omega
      | false =>
        have hpr : ¬ marker <+: (c :: rest) := by
          rw [← List.isPrefixOf_iff_prefix]
          simp [hp]
        have hrest : marker <:+: rest := by
          rcases List.infix_cons_iff.mp h with hpre | hinf
          · exact absurd hpre hpr
          · exact hinf
        have hlen : rest.length ≤ fuel := by
          simp [List.length_cons] at hf
          omega
        have IH := ih rest hlen hrest
        simp only [splitMarkerF, hp, Bool.false_eq_true, if_false]
        rcases hsp : splitMarkerF fuel rest with _ | ⟨part, parts⟩
        · exact absurd hsp (splitMarkerF_ne_nil fuel rest)
        · rw [hsp] at IH
          simp at IH ⊢
          omega

theorem splitMarkerF_last (fuel : Nat) (s : List Char) (hf : s.length ≤ fuel)
    (h : marker <:+: s) :
    ∃ a, s = a ++ marker ++ lastD (splitMarkerF fuel s) ∧
      ¬ marker <:+: lastD (splitMarkerF fuel s) := by
  induction fuel generalizing s with
  | zero =>
    have h1 := h.length_le
    simp [marker_length_eq] at h1
    omega
  | succ fuel ih =>
    cases s with
    | nil =>
      have h1 := h.length_le
      simp [marker_length_eq] at h1
    | cons c rest =>
      cases hp : marker.isPrefixOf (c :: rest) with
      | true =>
        have hpre : marker <+: (c :: rest) := List.isPrefixOf_iff_prefix.mp hp
        obtain ⟨tl, htl⟩ := hpre
        have hdrop : List.drop marker.length (c :: rest) = tl := by
          rw [← htl]
          exact List.drop_left _ _
        have hstep : splitMarkerF (fuel + 1) (c :: rest) = [] :: splitMarkerF fuel tl := by
          simp [splitMarkerF, hp, hdrop]
        have hlast : lastD (splitMarkerF (fuel + 1) (c :: rest)) =
            lastD (splitMarkerF fuel tl) := by
          rw [hstep]
          exact lastD_cons _ _ (splitMarkerF_ne_nil _ _)
        have hlen : tl.length ≤ fuel := by
          have hl := congrArg List.length htl
          simp [marker_length_eq] at hl
          simp [List.length_cons] at hf
          omega
        by_cases hm : marker <:+: tl
        · obtain ⟨a, ha, hno⟩ := ih tl hlen hm
          refine ⟨marker ++ a, ?_, ?_⟩
          · rw [hlast, ← htl]
            conv_lhs => rw [ha]
            simp [List.append_assoc]
          · rw [hlast]
            exact hno
        · have hsp := splitMarkerF_eq_single fuel tl hm
          refine ⟨[], ?_, ?_⟩
          · rw [hlast, hsp, ← htl]
            simp [lastD]
          · rw [hlast, hsp]
            simpa [lastD] using hm
      | false =>
        have hpr : ¬ marker <+: (c :: rest) := by
          rw [← List.isPrefixOf_iff_prefix]
          simp [hp]
        have hrest : marker <:+: rest := by
          rcases List.infix_cons_iff.mp h with hpre | hinf
          · exact absurd hpre hpr
          · exact hinf
        have hlen : rest.length ≤ fuel := by
          simp [List.length_cons] at hf
          omega
        obtain ⟨a, ha, hno⟩ := ih rest hlen hrest
        have h2 := splitMarkerF_two_le fuel rest hlen hrest
        rcases hsp : splitMarkerF fuel rest with _ | ⟨part, parts⟩
        · exact absurd hsp (splitMarkerF_ne_nil fuel rest)
        · have hps : parts ≠ [] := by
            rw [hsp] at h2
            simp at h2
            exact List.length_pos.mp h2
          have hstep : splitMarkerF (fuel + 1) (c :: rest) = (c :: part) :: parts := by
            simp [splitMarkerF, hp, hsp]
          have hlast2 : lastD ((c :: part) :: parts) = lastD (part :: parts) := by
            cases parts with
            | nil => exact absurd rfl hps
            | cons y ys => rfl
          rw [hsp] at ha hno
          refine ⟨c :: a, ?_, ?_⟩
          · rw [hstep, hlast2]
            conv_lhs => rw [ha]
            simp
          · rw [hstep, hlast2]
            exact hno

theorem splitMarker_last (s : List Char) (h : marker <:+: s) :
    ∃ a, s = a ++ marker ++ lastD (splitMarker s) ∧
      ¬ marker <:+: lastD (splitMarker s) :=
  splitMarkerF_last s.length s le_rfl h

theorem cleanStdout_no_marker (stdout : List Char) (h : ¬ marker <:+: stdout) :
    cleanStdout stdout = pyStrip stdout := by
  have h0 : ¬ marker <:+: pyStrip stdout := fun hc => h (hc.trans (pyStrip_within stdout))
  have hb : containsMarker (pyStrip stdout) = false := by
    rw [Bool.eq_false_iff]
    rw [Ne, containsMarker_iff]
    exact h0
  simp [cleanStdout, hb]

theorem cleanStdout_marker (stdout : List Char)
    (h : containsMarker (pyStrip stdout) = true) :
    ∃ a b, pyStrip stdout = a ++ marker ++ b ∧ containsMarker b = false ∧
      cleanStdout stdout = stripHeaderLine (pyStrip b) := by
  have hi : marker <:+: pyStrip stdout := (containsMarker_iff _).mp h
  obtain ⟨a, ha, hno⟩ := splitMarker_last _ hi
  refine ⟨a, lastD (splitMarker (pyStrip stdout)), ha, ?_, ?_⟩
  · rw [Bool.eq_false_iff, Ne, containsMarker_iff]
    exact hno
  · have h2 : 1 < (splitMarker (pyStrip stdout)).length :=
      splitMarkerF_two_le _ _ le_rfl hi
    simp [cleanStdout, h, h2]

/-! ### Lemmas about the context normaliser -/

theorem pyval_ind (P : PyVal → Prop)
    (h1 : ∀ s, P (PyVal.str s)) (h2 : ∀ q, P (PyVal.num q))
    (h3 : ∀ b, P (PyVal.bool b)) (h4 : P PyVal.none) (h5 : ∀ n, P (PyVal.obj n))
    (h6 : ∀ rows, (∀ row ∈ rows, ∀ kv ∈ row, P kv.2) → P (PyVal.df rows))
    (h7 : ∀ xs, (∀ x ∈ xs, P x) → P (PyVal.list xs))
    (h8 : ∀ kvs, (∀ kv ∈ kvs, P kv.2) → P (PyVal.dict kvs)) :
    ∀ x, P x
  | .str s => h1 s
  | .num q => h2 q
  | .bool b => h3 b
  | .none => h4
  | .obj n => h5 n
  | .df rows => h6 rows (fun row hrow kv hkv =>
      pyval_ind P h1 h2 h3 h4 h5 h6 h7 h8 kv.2)
  | .list xs => h7 xs (fun x hx => pyval_ind P h1 h2 h3 h4 h5 h6 h7 h8 x)
  | .dict kvs => h8 kvs (fun kv hkv => pyval_ind P h1 h2 h3 h4 h5 h6 h7 h8 kv.2)
termination_by x => sizeOf x
decreasing_by
  · have hr := List.sizeOf_lt_of_mem hrow
    have hk := List.sizeOf_lt_of_mem hkv
    obtain ⟨k, v⟩ := kv
    simp at hk ⊢
    omega
  · have hx2 := List.sizeOf_lt_of_mem hx
    simp
    omega
  · have hk := List.sizeOf_lt_of_mem hkv
    obtain ⟨k, v⟩ := kv
    simp at hk ⊢
    omega

theorem convertList_eq_map (xs : List PyVal) :
    convertList xs = xs.map recursively_convert := by
  induction xs with
  | nil => simp [convertList]
  | cons x xs ih => simp [convertList, ih]

theorem convertDict_eq_map (kvs : List (List Char × PyVal)) :
    convertDict kvs = kvs.map (fun kv => (kv.1, recursively_convert kv.2)) := by
  induction kvs with
  | nil => simp [convertDict]
  | cons kv kvs ih => simp [convertDict, ih]

theorem jsonSafeList_mem (xs : List PyVal) (h : jsonSafeList xs = true)
    (x : PyVal) (hx : x ∈ xs) : isJsonSafe x = true := by
  induction xs with
  | nil => cases hx
  | cons y ys ih =>
    simp [jsonSafeList, Bool.and_eq_true] at h
    rcases List.mem_cons.mp hx with rfl | hmem
    · exact h.1
    · exact ih h.2 hmem

theorem jsonSafeDict_mem (kvs : List (List Char × PyVal)) (h : jsonSafeDict kvs = true)
    (kv : List Char × PyVal) (hkv : kv ∈ kvs) : isJsonSafe kv.2 = true := by
  induction kvs with
  | nil => cases hkv
  | cons y ys ih =>
    simp [jsonSafeDict, Bool.and_eq_true] at h
    rcases List.mem_cons.mp hkv with rfl | hmem
    · exact h.1
    · exact ih h.2 hmem

theorem map_id_of_mem (l : List PyVal) (f : PyVal → PyVal)
    (h : ∀ x ∈ l, f x = x) : l.map f = l := by
  induction l with
  | nil => rfl
  | cons x xs ih =>
    simp only [List.map_cons, h x (by simp), ih (fun y hy => h y (by simp [hy]))]

theorem map_pair_id_of_mem (kvs : List (List Char × PyVal)) (f : PyVal → PyVal)
    (h : ∀ kv ∈ kvs, f kv.2 = kv.2) : kvs.map (fun kv => (kv.1, f kv.2)) = kvs := by
  induction kvs with
  | nil => rfl
  | cons kv kvs ih =>
    have h1 := h kv (by simp)
    obtain ⟨k, v⟩ := kv
    simp only at h1
    simp only [List.map_cons, h1, ih (fun kv2 hkv2 => h kv2 (by simp [hkv2]))]

theorem recursively_convert_id :
    ∀ x : PyVal, isJsonSafe x = true → recursively_convert x = x := by
  refine pyval_ind _ ?_ ?_ ?_ ?_ ?_ ?_ ?_ ?_
  · intro s _
    simp [recursively_convert]
  · intro q _
    simp [recursively_convert]
  · intro b _
    simp [recursively_convert]
  · intro _
    simp [recursively_convert]
  · intro n h
    simp [isJsonSafe] at h
  · intro rows _ h
    simp [isJsonSafe] at h
  · intro xs ihmem h
    simp only [isJsonSafe] at h
    simp only [recursively_convert, convertList_eq_map]
    rw [map_id_of_mem xs _ (fun x hx => ihmem x hx (jsonSafeList_mem xs h x hx))]
  · intro kvs ihmem h
    simp only [isJsonSafe] at h
    simp only [recursively_convert, convertDict_eq_map]
    rw [map_pair_id_of_mem kvs _ (fun kv hkv => ihmem kv hkv (jsonSafeDict_mem kvs h kv hkv))]

theorem process_fix_list (xs : List PyVal) (h : isJsonSafe (PyVal.list xs) = true) :
    process_context_data (PyVal.list xs) = PyVal.list xs :=
  recursively_convert_id _ h

theorem process_fix_dict (kvs : List (List Char × PyVal))
    (h : isJsonSafe (PyVal.dict kvs) = true) :
    process_context_data (PyVal.dict kvs) = PyVal.dict kvs :=
  recursively_convert_id _ h

theorem hasDfDict_of_rowClean (row : List (List Char × PyVal))
    (h : rowClean row = true) : hasDfDict row = false := by
  induction row with
  | nil => simp [hasDfDict]
  | cons kv r ih =>
    simp only [rowClean, Bool.and_eq_true, Bool.not_eq_true'] at h
    simp [hasDfDict, h.1, ih h.2]

theorem hasDfList_map_dict (rows : List (List (List Char × PyVal)))
    (h : rowsClean rows = true) : hasDfList (rows.map PyVal.dict) = false := by
  induction rows with
  | nil => simp [hasDfList]
  | cons row rows ih =>
    simp only [rowsClean, Bool.and_eq_true] at h
    simp [hasDfList, hasDf, hasDfDict_of_rowClean row h.1, ih h.2]

theorem cellsCleanList_mem (xs : List PyVal) (h : cellsCleanList xs = true)
    (x : PyVal) (hx : x ∈ xs) : cellsClean x = true := by
  induction xs with
  | nil => cases hx
  | cons y ys ih =>
    simp [cellsCleanList, Bool.and_eq_true] at h
    rcases List.mem_cons.mp hx with rfl | hmem
    · exact h.1
    · exact ih h.2 hmem

theorem cellsCleanDict_mem (kvs : List (List Char × PyVal))
    (h : cellsCleanDict kvs = true) (kv : List Char × PyVal) (hkv : kv ∈ kvs) :
    cellsClean kv.2 = true := by
  induction kvs with
  | nil => cases hkv
  | cons y ys ih =>
    simp [cellsCleanDict, Bool.and_eq_true] at h
    rcases List.mem_cons.mp hkv with rfl | hmem
    · exact h.1
    · exact ih h.2 hmem

theorem hasDfList_eq_false (xs : List PyVal) (h : ∀ x ∈ xs, hasDf x = false) :
    hasDfList xs = false := by
  induction xs with
  | nil => simp [hasDfList]
  | cons x xs ih =>
    simp [hasDfList, h x (by simp), ih (fun y hy => h y (by simp [hy]))]

theorem hasDfDict_eq_false (kvs : List (List Char × PyVal))
    (h : ∀ kv ∈ kvs, hasDf kv.2 = false) : hasDfDict kvs = false := by
  induction kvs with
  | nil => simp [hasDfDict]
  | cons kv kvs ih =>
    simp [hasDfDict, h kv (by simp), ih (fun y hy => h y (by simp [hy]))]

theorem hasDf_convert :
    ∀ x : PyVal, cellsClean x = true → hasDf (recursively_convert x) = false := by
  refine pyval_ind _ ?_ ?_ ?_ ?_ ?_ ?_ ?_ ?_
  · intro s _
    simp [recursively_convert, hasDf]
  · intro q _
    simp [recursively_convert, hasDf]
  · intro b _
    simp [recursively_convert, hasDf]
  · intro _
    simp [recursively_convert, hasDf]
  · intro n _
    simp [recursively_convert, hasDf]
  · intro rows _ h
    simp only [cellsClean] at h
    simp only [recursively_convert, hasDf]
    exact hasDfList_map_dict rows h
  · intro xs ihmem h
    simp only [cellsClean] at h
    simp only [recursively_convert, hasDf, convertList_eq_map]
    refine hasDfList_eq_false _ ?_
    intro y hy
    obtain ⟨x, hx, rfl⟩ := List.mem_map.mp hy
    exact ihmem x hx (cellsCleanList_mem xs h x hx)
  · intro kvs ihmem h
    simp only [cellsClean] at h
    simp only [recursively_convert, hasDf, convertDict_eq_map]
    refine hasDfDict_eq_false _ ?_
    intro kv2 hkv2
    obtain ⟨kv, hkv, rfl⟩ := List.mem_map.mp hkv2
    exact ihmem kv hkv (cellsCleanDict_mem kvs h kv hkv)

theorem hasDf_process (x : PyVal) (h : cellsClean x = true) :
    hasDf (process_context_data x) = false := by
  cases x with
  | str s => simp [process_context_data, hasDf]
  | num q => simp [process_context_data, hasDf]
  | bool b => simp [process_context_data, hasDf]
  | none => simp [process_context_data, hasDf]
  | obj n => simp [process_context_data, hasDf]
  | df rows =>
    simp only [cellsClean] at h
    simp only [process_context_data, hasDf]
    exact hasDfList_map_dict rows h
  | list xs => exact hasDf_convert _ h
  | dict kvs => exact hasDf_convert _ h

/-! ### Lemmas about the search dispatcher -/

theorem global_search_fallback (st : AppState) (api : ApiBehavior)
    (runner : List (List Char) → CliOutcome) (q : List Char) (t : Rat)
    (h : (st.graphragApiAvailable && st.dataLoaded) = false) :
    global_search st api runner q t = cliRespond runner q "global".data t := by
  simp [global_search, h, cliRespond, cliPhaseResult]

theorem local_search_fallback (st : AppState) (api : ApiBehavior)
    (runner : List (List Char) → CliOutcome) (q : List Char) (t : Rat)
    (h : (st.graphragApiAvailable && st.dataLoaded) = false) :
    local_search st api runner q t = cliRespond runner q "local".data t := by
  simp [local_search, h, cliRespond, cliPhaseResult]

theorem drift_search_fallback (st : AppState) (api : ApiBehavior)
    (runner : List (List Char) → CliOutcome) (q : List Char) (t : Rat)
    (h : (st.graphragApiAvailable && st.dataLoaded) = false) :
    drift_search st api runner q t = tagRespond runner q t "cli_local_fallback".data := by
  simp [drift_search, h, tagRespond, cliPhaseResult]

theorem basic_search_fallback (st : AppState) (api : ApiBehavior)
    (runner : List (List Char) → CliOutcome) (q : List Char) (t : Rat)
    (h : (st.graphragApiAvailable && st.dataLoaded) = false) :
    basic_search st api runner q t = tagRespond runner q t "cli_basic_fallback".data := by
  simp [basic_search, h, tagRespond, cliPhaseResult]

theorem global_search_raises (st : AppState) (e : List Char)
    (runner : List (List Char) → CliOutcome) (q : List Char) (t : Rat) :
    global_search st (.raises e) runner q t = cliRespond runner q "global".data t := by
  cases hc : st.graphragApiAvailable && st.dataLoaded <;>
    simp [global_search, hc, cliRespond, cliPhaseResult]

theorem local_search_raises (st : AppState) (e : List Char)
    (runner : List (List Char) → CliOutcome) (q : List Char) (t : Rat) :
    local_search st (.raises e) runner q t = cliRespond runner q "local".data t := by
  cases hc : st.graphragApiAvailable && st.dataLoaded <;>
    simp [local_search, hc, cliRespond, cliPhaseResult]

theorem drift_search_raises (st : AppState) (e : List Char)
    (runner : List (List Char) → CliOutcome) (q : List Char) (t : Rat) :
    drift_search st (.raises e) runner q t =
      tagRespond runner q t "cli_local_fallback".data := by
  cases hc : st.graphragApiAvailable && st.dataLoaded <;>
    simp [drift_search, hc, tagRespond, cliPhaseResult]

theorem basic_search_raises (st : AppState) (e : List Char)
    (runner : List (List Char) → CliOutcome) (q : List Char) (t : Rat) :
    basic_search st (.raises e) runner q t =
      tagRespond runner q t "cli_basic_fallback".data := by
  cases hc : st.graphragApiAvailable && st.dataLoaded <;>
    simp [basic_search, hc, tagRespond, cliPhaseResult]

theorem global_search_api (st : AppState) (resp : List Char) (ctx : PyVal)
    (runner : List (List Char) → CliOutcome) (q : List Char) (t : Rat)
    (h : (st.graphragApiAvailable && st.dataLoaded) = true) :
    global_search st (.ok resp ctx) runner q t =
      HttpOutcome.ok { response := resp, context_data := process_context_data ctx,
                       success := true, method_used := "api".data } := by
  simp [global_search, h]

theorem local_search_api (st : AppState) (resp : List Char) (ctx : PyVal)
    (runner : List (List Char) → CliOutcome) (q : List Char) (t : Rat)
    (h : (st.graphragApiAvailable && st.dataLoaded) = true) :
    local_search st (.ok resp ctx) runner q t =
      HttpOutcome.ok { response := resp, context_data := process_context_data ctx,
                       success := true, method_used := "api".data } := by
  simp [local_search, h]

theorem drift_search_api (st : AppState) (resp : List Char) (ctx : PyVal)
    (runner : List (List Char) → CliOutcome) (q : List Char) (t : Rat)
    (h : (st.graphragApiAvailable && st.dataLoaded) = true) :
    drift_search st (.ok resp ctx) runner q t =
      HttpOutcome.ok { response := resp, context_data := process_context_data ctx,
                       success := true, method_used := "api".data } := by
  simp [drift_search, h]

theorem basic_search_api (st : AppState) (resp : List Char) (ctx : PyVal)
    (runner : List (List Char) → CliOutcome) (q : List Char) (t : Rat)
    (h : (st.graphragApiAvailable && st.dataLoaded) = true) :
    basic_search st (.ok resp ctx) runner q t =
      HttpOutcome.ok { response := resp, context_data := process_context_data ctx,
                       success := true, method_used := "api".data } := by
  simp [basic_search, h]

theorem cliRespond_ok_success (runner : List (List Char) → CliOutcome)
    (q m : List Char) (t : Rat) (body : SearchResult)
    (h : cliRespond runner q m t = HttpOutcome.ok body) : body.success = true := by
  unfold cliRespond at h
  cases hs : (cliPhaseResult runner q m t).success with
  | false =>
    rw [hs] at h
    simp at h
  | true =>
    rw [hs] at h
    simp at h
    rw [← h]
    exact hs

theorem tagRespond_ok_success (runner : List (List Char) → CliOutcome)
    (q : List Char) (t : Rat) (tag : List Char) (body : SearchResult)
    (h : tagRespond runner q t tag = HttpOutcome.ok body) : body.success = true := by
  unfold tagRespond at h
  cases hs : (cliPhaseResult runner q "local".data t).success with
  | false =>
    rw [hs] at h
    simp at h
  | true =>
    rw [hs] at h
    simp at h
    rw [← h]
    exact hs

theorem cliRespond_fail (runner : List (List Char) → CliOutcome)
    (q m : List Char) (t : Rat)
    (h : (cliPhaseResult runner q m t).success = false) :
    cliRespond runner q m t =
      HttpOutcome.httpError 500 (cliPhaseResult runner q m t).response := by
  unfold cliRespond
  rw [h]
  rfl

theorem tagRespond_fail (runner : List (List Char) → CliOutcome)
    (q : List Char) (t : Rat) (tag : List Char)
    (h : (cliPhaseResult runner q "local".data t).success = false) :
    tagRespond runner q t tag =
      HttpOutcome.httpError 500 (cliPhaseResult runner q "local".data t).response := by
  unfold tagRespond
  rw [h]
  rfl

/-! ### Claim theorems -/

/-- Claim C1: for each of the four search endpoints, the in-process API
phase is attempted only when the engine import succeeded and the
data-loaded flag is true (otherwise the outcome is exactly the CLI
phase), and any exception raised during the API phase is swallowed: the
handler always proceeds to the CLI phase, never propagating the
exception. -/
theorem C1_api_phase_gating (st : AppState) (api : ApiBehavior)
    (runner : List (List Char) → CliOutcome) (q : List Char) (t : Rat)
    (e : List Char) :
    ((st.graphragApiAvailable && st.dataLoaded) = false →
      global_search st api runner q t = cliRespond runner q "global".data t ∧
      local_search st api runner q t = cliRespond runner q "local".data t ∧
      drift_search st api runner q t = tagRespond runner q t "cli_local_fallback".data ∧
      basic_search st api runner q t = tagRespond runner q t "cli_basic_fallback".data) ∧
    (global_search st (.raises e) runner q t = cliRespond runner q "global".data t ∧
     local_search st (.raises e) runner q t = cliRespond runner q "local".data t ∧
     drift_search st (.raises e) runner q t = tagRespond runner q t "cli_local_fallback".data ∧
     basic_search st (.raises e) runner q t = tagRespond runner q t "cli_basic_fallback".data) :=
  ⟨fun h => ⟨global_search_fallback st api runner q t h,
             local_search_fallback st api runner q t h,
             drift_search_fallback st api runner q t h,
             basic_search_fallback st api runner q t h⟩,
   global_search_raises st e runner q t,
   local_search_raises st e runner q t,
   drift_search_raises st e runner q t,
   basic_search_raises st e runner q t⟩

theorem C1_api_phase_gating_witness :
    (((AppState.mk false true).graphragApiAvailable &&
        (AppState.mk false true).dataLoaded) = false) ∧
    (global_search (AppState.mk false true) (ApiBehavior.ok "r".data PyVal.none)
        (fun _ => CliOutcome.raised "x".data) "q".data 0 =
      cliRespond (fun _ => CliOutcome.raised "x".data) "q".data "global".data 0 ∧
     local_search (AppState.mk false true) (ApiBehavior.ok "r".data PyVal.none)
        (fun _ => CliOutcome.raised "x".data) "q".data 0 =
      cliRespond (fun _ => CliOutcome.raised "x".data) "q".data "local".data 0 ∧
     drift_search (AppState.mk false true) (ApiBehavior.ok "r".data PyVal.none)
        (fun _ => CliOutcome.raised "x".data) "q".data 0 =
      tagRespond (fun _ => CliOutcome.raised "x".data) "q".data 0 "cli_local_fallback".data ∧
     basic_search (AppState.mk false true) (ApiBehavior.ok "r".data PyVal.none)
        (fun _ => CliOutcome.raised "x".data) "q".data 0 =
      tagRespond (fun _ => CliOutcome.raised "x".data) "q".data 0 "cli_basic_fallback".data) :=
  ⟨rfl,
   (C1_api_phase_gating (AppState.mk false true) (ApiBehavior.ok "r".data PyVal.none)
      (fun _ => CliOutcome.raised "x".data) "q".data 0 []).1 rfl⟩

/-- Claim C2: on CLI exit code 0 the (stripped) stdout is the response;
when it contains the `"SUCCESS:"` marker, everything up to and including
the (last) marker is discarded, keeping only the marker-free remainder,
to which the known-header first-line strip is applied; in particular
`"SUCCESS:\nLocal Search Response:\nHello"` normalises to `"Hello"` and
`"SUCCESS:\nHello"` normalises to `"Hello"`. -/
theorem C2_stdout_normalization (q m : List Char) (cl : Option Nat)
    (rt : Option (List Char)) (t : Rat) (stdout stderr : List Char) :
    (execute_cli_search (fun _ => CliOutcome.exited 0 stdout stderr) q m cl rt t =
      { response := cleanStdout stdout
        context_data := PyVal.dict [("method".data, PyVal.str "cli_fallback".data),
                                    ("execution_time".data, PyVal.num t)]
        success := true
        method_used := "cli".data }) ∧
    (containsMarker (pyStrip stdout) = true →
      ∃ a b, pyStrip stdout = a ++ marker ++ b ∧ containsMarker b = false ∧
        cleanStdout stdout = stripHeaderLine (pyStrip b)) ∧
    cleanStdout "SUCCESS:\nLocal Search Response:\nHello".data = "Hello".data ∧
    cleanStdout "SUCCESS:\nHello".data = "Hello".data :=
  ⟨rfl, cleanStdout_marker stdout, by decide, by decide⟩

theorem C2_stdout_normalization_witness :
    containsMarker (pyStrip "xxSUCCESS:yy".data) = true ∧
    (∃ a b, pyStrip "xxSUCCESS:yy".data = a ++ marker ++ b ∧
      containsMarker b = false ∧
      cleanStdout "xxSUCCESS:yy".data = stripHeaderLine (pyStrip b)) :=
  ⟨by decide,
   (C2_stdout_normalization "q".data "global".data Option.none Option.none 0
      "xxSUCCESS:yy".data []).2.1 (by decide)⟩

/-- Claim C3: a nonzero CLI exit yields the `"CLI Error: " + stderr`
failure record, an invocation exception yields the
`"CLI Exception: " + message` failure record (never propagating), and a
nonzero exit with stderr `"boom"` surfaces as HTTP 500 with detail
`"CLI Error: boom"`. -/
theorem C3_cli_failure_shapes (q m : List Char) (cl : Option Nat)
    (rt : Option (List Char)) (t : Rat) (rc : Int) (stdout stderr msg : List Char)
    (st : AppState) (api : ApiBehavior) (q2 : List Char) (t2 : Rat) :
    (rc ≠ 0 →
      execute_cli_search (fun _ => CliOutcome.exited rc stdout stderr) q m cl rt t =
        { response := "CLI Error: ".data ++ stderr
          context_data := PyVal.dict [("error".data, PyVal.str stderr)]
          success := false
          method_used := "cli".data }) ∧
    (execute_cli_search (fun _ => CliOutcome.raised msg) q m cl rt t =
      { response := "CLI Exception: ".data ++ msg
        context_data := PyVal.dict [("error".data, PyVal.str msg)]
        success := false
        method_used := "cli".data }) ∧
    ((st.graphragApiAvailable && st.dataLoaded) = false → rc ≠ 0 →
      global_search st api (fun _ => CliOutcome.exited rc stdout "boom".data) q2 t2 =
        HttpOutcome.httpError 500 "CLI Error: boom".data) := by
  refine ⟨?_, rfl, ?_⟩
  · intro h
    simp [execute_cli_search, h]
  · intro hc h
    rw [global_search_fallback st api _ q2 t2 hc]
    rw [cliRespond_fail _ _ _ _ (by simp [cliPhaseResult, execute_cli_search, h])]
    simp [cliPhaseResult, execute_cli_search, h]

theorem C3_cli_failure_shapes_witness :
    ((1 : Int) ≠ 0) ∧
    (((AppState.mk false false).graphragApiAvailable &&
        (AppState.mk false false).dataLoaded) = false) ∧
    (execute_cli_search (fun _ => CliOutcome.exited 1 [] "boom".data) "q".data
        "global".data Option.none Option.none 0 =
      { response := "CLI Error: ".data ++ "boom".data
        context_data := PyVal.dict [("error".data, PyVal.str "boom".data)]
        success := false
        method_used := "cli".data }) ∧
    (global_search (AppState.mk false false) (ApiBehavior.raises [])
        (fun _ => CliOutcome.exited 1 [] "boom".data) "q".data 0 =
      HttpOutcome.httpError 500 "CLI Error: boom".data) :=
  ⟨by decide, rfl,
   (C3_cli_failure_shapes "q".data "global".data Option.none Option.none 0 1 []
      "boom".data [] (AppState.mk false false) (ApiBehavior.raises []) "q".data 0).1
     (by decide),
   (C3_cli_failure_shapes "q".data "global".data Option.none Option.none 0 1 []
      "boom".data [] (AppState.mk false false) (ApiBehavior.raises []) "q".data 0).2.2
     rfl (by decide)⟩

/-- Claim C4: when the drift endpoint takes the CLI phase it invokes the
CLI bridge with method token `"local"` and overwrites the successful
result's `method_used` to `"cli_local_fallback"`; the basic endpoint
likewise uses method token `"local"` and the tag
`"cli_basic_fallback"`.  The last conjunct shows the invocation really
is keyed by the `"local"`-method command line: the outcome depends on
the runner only through its value at that command. -/
theorem C4_fallback_method_substitution (st : AppState) (api : ApiBehavior)
    (runner runner2 : List (List Char) → CliOutcome) (q : List Char) (t : Rat)
    (e : List Char) :
    ((st.graphragApiAvailable && st.dataLoaded) = false →
      drift_search st api runner q t = tagRespond runner q t "cli_local_fallback".data ∧
      basic_search st api runner q t = tagRespond runner q t "cli_basic_fallback".data) ∧
    (drift_search st (.raises e) runner q t = tagRespond runner q t "cli_local_fallback".data ∧
     basic_search st (.raises e) runner q t = tagRespond runner q t "cli_basic_fallback".data) ∧
    (runner (buildCmd q "local".data (some COMMUNITY_LEVEL) (some RESPONSE_TYPE)) =
        runner2 (buildCmd q "local".data (some COMMUNITY_LEVEL) (some RESPONSE_TYPE)) →
      drift_search st (.raises e) runner q t = drift_search st (.raises e) runner2 q t ∧
      basic_search st (.raises e) runner q t = basic_search st (.raises e) runner2 q t) := by
  refine ⟨fun h => ⟨drift_search_fallback st api runner q t h,
                    basic_search_fallback st api runner q t h⟩,
          ⟨drift_search_raises st e runner q t, basic_search_raises st e runner q t⟩,
          fun h => ⟨?_, ?_⟩⟩
  · rw [drift_search_raises st e runner q t, drift_search_raises st e runner2 q t]
    simp only [tagRespond, cliPhaseResult, execute_cli_search]
    rw [h]
  · rw [basic_search_raises st e runner q t, basic_search_raises st e runner2 q t]
    simp only [tagRespond, cliPhaseResult, execute_cli_search]
    rw [h]

theorem C4_fallback_method_substitution_witness :
    (((AppState.mk true false).graphragApiAvailable &&
        (AppState.mk true false).dataLoaded) = false) ∧
    (drift_search (AppState.mk true false) (ApiBehavior.ok "r".data PyVal.none)
        (fun _ => CliOutcome.exited 0 "ok".data []) "q".data 0 =
      tagRespond (fun _ => CliOutcome.exited 0 "ok".data []) "q".data 0
        "cli_local_fallback".data ∧
     basic_search (AppState.mk true false) (ApiBehavior.ok "r".data PyVal.none)
        (fun _ => CliOutcome.exited 0 "ok".data []) "q".data 0 =
      tagRespond (fun _ => CliOutcome.exited 0 "ok".data []) "q".data 0
        "cli_basic_fallback".data) :=
  ⟨rfl,
   (C4_fallback_method_substitution (AppState.mk true false)
      (ApiBehavior.ok "r".data PyVal.none) (fun _ => CliOutcome.exited 0 "ok".data [])
      (fun _ => CliOutcome.exited 0 "ok".data []) "q".data 0 []).1 rfl⟩

/-- Claim C5 counterexample: the claim says any value not matching the
string/tabular/sequence/mapping shapes is mapped to the null marker *at
any nesting depth*, but a non-matching object nested inside a sequence
is returned unchanged by `recursively_convert`, not replaced by the
null marker. -/
theorem C5_nested_value_cex :
    process_context_data (PyVal.list [PyVal.obj 0]) = PyVal.list [PyVal.obj 0] ∧
    PyVal.list [PyVal.obj 0] ≠ PyVal.list [PyVal.none] := by
  constructor
  · simp [process_context_data, recursively_convert, convertList]
  · intro h
    injection h with h1
    injection h1 with h2 h3
    exact PyVal.noConfusion h2

/-- Claim C5 (amended): the normaliser returns strings unchanged, turns
a tabular structure into a sequence of row-mappings, normalises
sequence elements and mapping values recursively, and maps a
non-matching value to the null marker *only at top level*; nested
non-matching values are returned unchanged. -/
theorem C5_normalizer_shapes :
    (∀ s, process_context_data (PyVal.str s) = PyVal.str s) ∧
    (∀ rows, process_context_data (PyVal.df rows) = PyVal.list (rows.map PyVal.dict)) ∧
    (∀ xs, process_context_data (PyVal.list xs) =
      PyVal.list (xs.map recursively_convert)) ∧
    (∀ kvs, process_context_data (PyVal.dict kvs) =
      PyVal.dict (kvs.map (fun kv => (kv.1, recursively_convert kv.2)))) ∧
    (∀ q, process_context_data (PyVal.num q) = PyVal.none) ∧
    (∀ b, process_context_data (PyVal.bool b) = PyVal.none) ∧
    (process_context_data PyVal.none = PyVal.none) ∧
    (∀ n, process_context_data (PyVal.obj n) = PyVal.none) ∧
    (∀ n, recursively_convert (PyVal.obj n) = PyVal.obj n) ∧
    (∀ q, recursively_convert (PyVal.num q) = PyVal.num q) ∧
    (∀ b, recursively_convert (PyVal.bool b) = PyVal.bool b) ∧
    (recursively_convert PyVal.none = PyVal.none) ∧
    (∀ s, recursively_convert (PyVal.str s) = PyVal.str s) := by
  refine ⟨fun s => rfl, fun rows => rfl, ?_, ?_, fun q => rfl, fun b => rfl, rfl,
          fun n => rfl, ?_, ?_, ?_, ?_, ?_⟩
  · intro xs
    simp [process_context_data, recursively_convert, convertList_eq_map]
  · intro kvs
    simp [process_context_data, recursively_convert, convertDict_eq_map]
  · intro n
    simp [recursively_convert]
  · intro q
    simp [recursively_convert]
  · intro b
    simp [recursively_convert]
  · simp [recursively_convert]
  · intro s
    simp [recursively_convert]

/-- Claim C6: the context normaliser is idempotent on already-normalised
input (values made only of JSON primitives, mappings and sequences),
and a nested mapping containing a tabular structure as a value produces
a mapping whose corresponding value is the sequence of row-mappings. -/
theorem C6_normalizer_idempotent :
    (∀ x : PyVal, isJsonSafe x = true →
      process_context_data (process_context_data x) = process_context_data x) ∧
    (∀ (kvs : List (List Char × PyVal)) (k : List Char)
        (rows : List (List (List Char × PyVal))),
      (k, PyVal.df rows) ∈ kvs →
      ∃ kvs2, process_context_data (PyVal.dict kvs) = PyVal.dict kvs2 ∧
        (k, PyVal.list (rows.map PyVal.dict)) ∈ kvs2) := by
  constructor
  · intro x h
    cases x with
    | str s => rfl
    | num q => rfl
    | bool b => rfl
    | none => rfl
    | obj n => rfl
    | df rows => simp [isJsonSafe] at h
    | list xs => simp only [process_fix_list xs h]
    | dict kvs => simp only [process_fix_dict kvs h]
  · intro kvs k rows h
    refine ⟨convertDict kvs, by simp [process_context_data, recursively_convert], ?_⟩
    rw [convertDict_eq_map]
    have hm := List.mem_map_of_mem (fun kv => (kv.1, recursively_convert kv.2)) h
    have heq : recursively_convert (PyVal.df rows) = PyVal.list (rows.map PyVal.dict) := by
      simp [recursively_convert]
    have hm2 : (k, recursively_convert (PyVal.df rows)) ∈
        kvs.map (fun kv => (kv.1, recursively_convert kv.2)) := hm
    rw [heq] at hm2
    exact hm2

theorem C6_normalizer_idempotent_witness :
    isJsonSafe (PyVal.dict [("a".data, PyVal.str "b".data)]) = true ∧
    process_context_data (process_context_data
        (PyVal.dict [("a".data, PyVal.str "b".data)])) =
      process_context_data (PyVal.dict [("a".data, PyVal.str "b".data)]) ∧
    ("k".data, PyVal.df [[("c".data, PyVal.num 1)]]) ∈
      [("k".data, PyVal.df [[("c".data, PyVal.num 1)]])] ∧
    (∃ kvs2, process_context_data
        (PyVal.dict [("k".data, PyVal.df [[("c".data, PyVal.num 1)]])]) =
        PyVal.dict kvs2 ∧
      ("k".data, PyVal.list ([[("c".data, PyVal.num 1)]].map PyVal.dict)) ∈ kvs2) :=
  ⟨by simp [isJsonSafe, jsonSafeDict],
   C6_normalizer_idempotent.1 _ (by simp [isJsonSafe, jsonSafeDict]),
   by simp,
   C6_normalizer_idempotent.2 _ "k".data [[("c".data, PyVal.num 1)]] (by simp)⟩

/-- Claim C7 counterexample: the claim says `success=true` implies a
non-empty response, but a CLI exit code 0 with empty stdout produces a
result with `success=true` and an empty response, which the endpoint
returns as a 200 body. -/
theorem C7_success_nonempty_cex :
    (execute_cli_search (fun _ => CliOutcome.exited 0 [] []) "q".data
        "global".data Option.none Option.none 0).success = true ∧
    (execute_cli_search (fun _ => CliOutcome.exited 0 [] []) "q".data
        "global".data Option.none Option.none 0).response = [] ∧
    global_search (AppState.mk false false) (ApiBehavior.raises [])
        (fun _ => CliOutcome.exited 0 [] []) "q".data 0 =
      HttpOutcome.ok
        { response := []
          context_data := PyVal.dict [("method".data, PyVal.str "cli_fallback".data),
                                      ("execution_time".data, PyVal.num 0)]
          success := true
          method_used := "cli".data } :=
  ⟨rfl, rfl, rfl⟩

/-- Claim C7 (amended): every body returned with HTTP 200 by a search
endpoint has `success=true`, and whenever the CLI phase runs and its
result has `success=false` the endpoint raises HTTP 500 with the
result's response text as detail; `success=true` does *not* guarantee a
non-empty response. -/
theorem C7_result_flag_invariant (st : AppState) (api : ApiBehavior)
    (runner : List (List Char) → CliOutcome) (q : List Char) (t : Rat)
    (e : List Char) :
    (∀ body, global_search st api runner q t = HttpOutcome.ok body →
      body.success = true) ∧
    (∀ body, local_search st api runner q t = HttpOutcome.ok body →
      body.success = true) ∧
    (∀ body, drift_search st api runner q t = HttpOutcome.ok body →
      body.success = true) ∧
    (∀ body, basic_search st api runner q t = HttpOutcome.ok body →
      body.success = true) ∧
    (((st.graphragApiAvailable && st.dataLoaded) = false ∨ api = ApiBehavior.raises e) →
      ((cliPhaseResult runner q "global".data t).success = false →
        global_search st api runner q t =
          HttpOutcome.httpError 500 (cliPhaseResult runner q "global".data t).response) ∧
      ((cliPhaseResult runner q "local".data t).success = false →
        local_search st api runner q t =
          HttpOutcome.httpError 500 (cliPhaseResult runner q "local".data t).response) ∧
      ((cliPhaseResult runner q "local".data t).success = false →
        drift_search st api runner q t =
          HttpOutcome.httpError 500 (cliPhaseResult runner q "local".data t).response) ∧
      ((cliPhaseResult runner q "local".data t).success = false →
        basic_search st api runner q t =
          HttpOutcome.httpError 500 (cliPhaseResult runner q "local".data t).response)) := by
  refine ⟨?_, ?_, ?_, ?_, ?_⟩
  · intro body h
    cases hc : st.graphragApiAvailable && st.dataLoaded with
    | true =>
      cases api with
      | ok resp ctx =>
        rw [global_search_api st resp ctx runner q t hc] at h
        injection h with h1
        rw [← h1]
      | raises e2 =>
        rw [global_search_raises st e2 runner q t] at h
        exact cliRespond_ok_success _ _ _ _ _ h
    | false =>
      rw [global_search_fallback st api runner q t hc] at h
      exact cliRespond_ok_success _ _ _ _ _ h
  · intro body h
    cases hc : st.graphragApiAvailable && st.dataLoaded with
    | true =>
      cases api with
      | ok resp ctx =>
        rw [local_search_api st resp ctx runner q t hc] at h
        injection h with h1
        rw [← h1]
      | raises e2 =>
        rw [local_search_raises st e2 runner q t] at h
        exact cliRespond_ok_success _ _ _ _ _ h
    | false =>
      rw [local_search_fallback st api runner q t hc] at h
      exact cliRespond_ok_success _ _ _ _ _ h
  · intro body h
    cases hc : st.graphragApiAvailable && st.dataLoaded with
    | true =>
      cases api with
      | ok resp ctx =>
        rw [drift_search_api st resp ctx runner q t hc] at h
        injection h with h1
        rw [← h1]
      | raises e2 =>
        rw [drift_search_raises st e2 runner q t] at h
        exact tagRespond_ok_success _ _ _ _ _ h
    | false =>
      rw [drift_search_fallback st api runner q t hc] at h
      exact tagRespond_ok_success _ _ _ _ _ h
  · intro body h
    cases hc : st.graphragApiAvailable && st.dataLoaded with
    | true =>
      cases api with
      | ok resp ctx =>
        rw [basic_search_api st resp ctx runner q t hc] at h
        injection h with h1
        rw [← h1]
      | raises e2 =>
        rw [basic_search_raises st e2 runner q t] at h
        exact tagRespond_ok_success _ _ _ _ _ h
    | false =>
      rw [basic_search_fallback st api runner q t hc] at h
      exact tagRespond_ok_success _ _ _ _ _ h
  · intro hd
    have h4 : global_search st api runner q t = cliRespond runner q "global".data t ∧
        local_search st api runner q t = cliRespond runner q "local".data t ∧
        drift_search st api runner q t = tagRespond runner q t "cli_local_fallback".data ∧
        basic_search st api runner q t = tagRespond runner q t "cli_basic_fallback".data := by
      rcases hd with hc | hapi
      · exact ⟨global_search_fallback st api runner q t hc,
               local_search_fallback st api runner q t hc,
               drift_search_fallback st api runner q t hc,
               basic_search_fallback st api runner q t hc⟩
      · subst hapi
        exact ⟨global_search_raises st e runner q t,
               local_search_raises st e runner q t,
               drift_search_raises st e runner q t,
               basic_search_raises st e runner q t⟩
    refine ⟨fun hs => ?_, fun hs => ?_, fun hs => ?_, fun hs => ?_⟩
    · rw [h4.1, cliRespond_fail runner q "global".data t hs]
    · rw [h4.2.1, cliRespond_fail runner q "local".data t hs]
    · rw [h4.2.2.1, tagRespond_fail runner q t "cli_local_fallback".data hs]
    · rw [h4.2.2.2, tagRespond_fail runner q t "cli_basic_fallback".data hs]

theorem C7_result_flag_invariant_witness :
    (global_search (AppState.mk false false) (ApiBehavior.raises [])
        (fun _ => CliOutcome.exited 0 "hi".data []) "q".data 0 =
      HttpOutcome.ok
        { response := "hi".data
          context_data := PyVal.dict [("method".data, PyVal.str "cli_fallback".data),
                                      ("execution_time".data, PyVal.num 0)]
          success := true
          method_used := "cli".data }) ∧
    ({ response := "hi".data
       context_data := PyVal.dict [("method".data, PyVal.str "cli_fallback".data),
                                   ("execution_time".data, PyVal.num 0)]
       success := true
       method_used := "cli".data } : SearchResult).success = true ∧
    ((((AppState.mk false false).graphragApiAvailable &&
        (AppState.mk false false).dataLoaded) = false) ∨
      ApiBehavior.raises [] = ApiBehavior.raises []) ∧
    (cliPhaseResult (fun _ => CliOutcome.exited 1 [] "e".data) "q".data
        "global".data 0).success = false ∧
    global_search (AppState.mk false false) (ApiBehavior.raises [])
        (fun _ => CliOutcome.exited 1 [] "e".data) "q".data 0 =
      HttpOutcome.httpError 500
        (cliPhaseResult (fun _ => CliOutcome.exited 1 [] "e".data) "q".data
          "global".data 0).response :=
  ⟨rfl,
   (C7_result_flag_invariant (AppState.mk false false) (ApiBehavior.raises [])
      (fun _ => CliOutcome.exited 0 "hi".data []) "q".data 0 []).1 _ rfl,
   Or.inl rfl,
   rfl,
   ((C7_result_flag_invariant (AppState.mk false false) (ApiBehavior.raises [])
      (fun _ => CliOutcome.exited 1 [] "e".data) "q".data 0 []).2.2.2.2
     (Or.inl rfl)).1 rfl⟩

/-- Claim C8 counterexample: the claim says an API-phase success yields
`context_data` free of tabular values at any depth reachable through
mappings and sequences, but a DataFrame whose cell itself holds a
DataFrame is converted to row-mappings whose cell still contains the
inner DataFrame, now reachable through a sequence and a mapping. -/
theorem C8_api_context_df_cex :
    global_search (AppState.mk true true)
        (ApiBehavior.ok "r".data (PyVal.df [[("a".data, PyVal.df [])]]))
        (fun _ => CliOutcome.raised []) "q".data 0 =
      HttpOutcome.ok
        { response := "r".data
          context_data := PyVal.list [PyVal.dict [("a".data, PyVal.df [])]]
          success := true
          method_used := "api".data } ∧
    hasDf (PyVal.list [PyVal.dict [("a".data, PyVal.df [])]]) = true := by
  constructor
  · rfl
  · simp [hasDf, hasDfList, hasDfDict]

/-- Claim C8 (amended): for all four endpoints, an engine success with
the availability and data-loaded flags set returns `method_used = "api"`
with the normalised context as body, and — provided every tabular value
in the engine context has DataFrame-free cells — the returned
`context_data` contains no tabular value at any depth reachable through
mappings and sequences. -/
theorem C8_api_success_shape (st : AppState)
    (runner : List (List Char) → CliOutcome) (q : List Char) (t : Rat)
    (resp : List Char) (ctx : PyVal)
    (h : (st.graphragApiAvailable && st.dataLoaded) = true)
    (hc : cellsClean ctx = true) :
    (global_search st (ApiBehavior.ok resp ctx) runner q t =
      HttpOutcome.ok { response := resp, context_data := process_context_data ctx,
                       success := true, method_used := "api".data }) ∧
    (local_search st (ApiBehavior.ok resp ctx) runner q t =
      HttpOutcome.ok { response := resp, context_data := process_context_data ctx,
                       success := true, method_used := "api".data }) ∧
    (drift_search st (ApiBehavior.ok resp ctx) runner q t =
      HttpOutcome.ok { response := resp, context_data := process_context_data ctx,
                       success := true, method_used := "api".data }) ∧
    (basic_search st (ApiBehavior.ok resp ctx) runner q t =
      HttpOutcome.ok { response := resp, context_data := process_context_data ctx,
                       success := true, method_used := "api".data }) ∧
    hasDf (process_context_data ctx) = false :=
  ⟨global_search_api st resp ctx runner q t h,
   local_search_api st resp ctx runner q t h,
   drift_search_api st resp ctx runner q t h,
   basic_search_api st resp ctx runner q t h,
   hasDf_process ctx hc⟩

theorem C8_api_success_shape_witness :
    (((AppState.mk true true).graphragApiAvailable &&
        (AppState.mk true true).dataLoaded) = true) ∧
    cellsClean (PyVal.dict [("a".data, PyVal.df [[("b".data, PyVal.num 1)]])]) = true ∧
    (global_search (AppState.mk true true)
        (ApiBehavior.ok "r".data
          (PyVal.dict [("a".data, PyVal.df [[("b".data, PyVal.num 1)]])]))
        (fun _ => CliOutcome.raised []) "q".data 0 =
      HttpOutcome.ok
        { response := "r".data
          context_data := process_context_data
            (PyVal.dict [("a".data, PyVal.df [[("b".data, PyVal.num 1)]])])
          success := true
          method_used := "api".data }) ∧
    hasDf (process_context_data
      (PyVal.dict [("a".data, PyVal.df [[("b".data, PyVal.num 1)]])])) = false :=
  ⟨rfl,
   by simp [cellsClean, cellsCleanDict, rowsClean, rowClean, hasDf],
   (C8_api_success_shape (AppState.mk true true) (fun _ => CliOutcome.raised [])
      "q".data 0 "r".data
      (PyVal.dict [("a".data, PyVal.df [[("b".data, PyVal.num 1)]])]) rfl
      (by simp [cellsClean, cellsCleanDict, rowsClean, rowClean, hasDf])).1,
   (C8_api_success_shape (AppState.mk true true) (fun _ => CliOutcome.raised [])
      "q".data 0 "r".data
      (PyVal.dict [("a".data, PyVal.df [[("b".data, PyVal.num 1)]])]) rfl
      (by simp [cellsClean, cellsCleanDict, rowsClean, rowClean, hasDf])).2.2.2.2⟩

/-- Claim C9: the `/query` compatibility endpoint with parameters `q`
and `method` (defaulting to `"global"`) dispatches to the matching
search endpoint for `"global"`, `"local"`, `"drift"` and `"basic"`, and
raises HTTP 400 with a detail beginning with `"Invalid method"` for any
other method value; in particular `method = "bogus"` yields HTTP 400. -/
theorem C9_query_dispatch (st : AppState) (api : ApiBehavior)
    (runner : List (List Char) → CliOutcome) (q : List Char) (t : Rat)
    (m : List Char) :
    (query_get st api runner q (some "global".data) t = global_search st api runner q t) ∧
    (query_get st api runner q Option.none t = global_search st api runner q t) ∧
    (query_get st api runner q (some "local".data) t = local_search st api runner q t) ∧
    (query_get st api runner q (some "drift".data) t = drift_search st api runner q t) ∧
    (query_get st api runner q (some "basic".data) t = basic_search st api runner q t) ∧
    (m ≠ "global".data → m ≠ "local".data → m ≠ "drift".data → m ≠ "basic".data →
      query_get st api runner q (some m) t =
        HttpOutcome.httpError 400
          "Invalid method. Use: global, local, drift, or basic".data ∧
      "Invalid method".data <+:
        "Invalid method. Use: global, local, drift, or basic".data) ∧
    (query_get st api runner q (some "bogus".data) t =
      HttpOutcome.httpError 400
        "Invalid method. Use: global, local, drift, or basic".data) := by
  refine ⟨rfl, rfl, rfl, rfl, rfl, ?_, rfl⟩
  intro h1 h2 h3 h4
  constructor
  · simp only [query_get, Option.getD_some]
    rw [if_neg h1, if_neg h2, if_neg h3, if_neg h4]
  · decide

theorem C9_query_dispatch_witness :
    ("bogus".data ≠ "global".data) ∧ ("bogus".data ≠ "local".data) ∧
    ("bogus".data ≠ "drift".data) ∧ ("bogus".data ≠ "basic".data) ∧
    (query_get (AppState.mk false false) (ApiBehavior.raises [])
        (fun _ => CliOutcome.raised []) "test".data (some "bogus".data) 0 =
      HttpOutcome.httpError 400
        "Invalid method. Use: global, local, drift, or basic".data ∧
     "Invalid method".data <+:
       "Invalid method. Use: global, local, drift, or basic".data) :=
  ⟨by decide, by decide, by decide, by decide,
   (C9_query_dispatch (AppState.mk false false) (ApiBehavior.raises [])
      (fun _ => CliOutcome.raised []) "test".data 0 "bogus".data).2.2.2.2.2.1
     (by decide) (by decide) (by decide) (by decide)⟩

/-- Claim C10: the header lines are stripped only when stdout contains
the `"SUCCESS:"` marker — on exit code 0 with marker-free stdout the
response is stdout with only surrounding whitespace stripped, even when
it begins with a header line. -/
theorem C10_header_strip_needs_marker (q m : List Char) (cl : Option Nat)
    (rt : Option (List Char)) (t : Rat) (stdout stderr : List Char)
    (h : containsMarker stdout = false) :
    (execute_cli_search (fun _ => CliOutcome.exited 0 stdout stderr) q m cl rt t).response
      = pyStrip stdout ∧
    (execute_cli_search (fun _ => CliOutcome.exited 0
        "Local Search Response:\nHello".data stderr) q m cl rt t).response
      = "Local Search Response:\nHello".data := by
  constructor
  · have hni : ¬ marker <:+: stdout := by
      rw [← containsMarker_iff]
      simp [h]
    show cleanStdout stdout = pyStrip stdout
    exact cleanStdout_no_marker stdout hni
  · show cleanStdout "Local Search Response:\nHello".data =
      "Local Search Response:\nHello".data
    decide

theorem C10_header_strip_needs_marker_witness :
    containsMarker "Local Search Response:\nHello".data = false ∧
    (execute_cli_search (fun _ => CliOutcome.exited 0
        "Local Search Response:\nHello".data []) "q".data "local".data
        Option.none Option.none 0).response
      = pyStrip "Local Search Response:\nHello".data :=
  ⟨by decide,
   (C10_header_strip_needs_marker "q".data "local".data Option.none Option.none 0
      "Local Search Response:\nHello".data [] (by decide)).1⟩

end Ragtest
